import Mathlib

/-!
Verification development for the vacancy–application matching core of a
tuition-website backend.

The repository implements the core as inline Express route handlers over a
MongoDB store of `Vacancy` documents, each embedding an ordered array of
`applications`.  Two files implement (partially overlapping) versions of the
same operations:

* `routes/teacherApply.js`
  - `POST /apply-vacancy/:id`      (apply, teacher-facing route)
  - `PUT  /application-status/:applicationId` (status update with cascade)
  - `GET  /available-vacancies`    (availability listing, per teacher)
* `routes/vacancyRoutes.js`
  - `POST /apply-vacancy/:id`      (apply, second implementation)
  - `PUT  /:vacancyId/applications/:applicationId/status` (plain status update)

The store is modelled as a `List Vacancy`; Mongo identifiers are modelled as
`Nat`; the duck-typed status fields stay `String`, exactly as in the source
("open"/"closed" on vacancies, "pending"/"accepted"/"rejected" — or anything
else a caller sends — on applications).  `findOne` is `List.find?`, the
positional `$` update is "update the first array element that matches", and
`arrayFilters` updates are `List.map` guarded by the filter condition.
Timestamps are abstract `Nat`s (`appliedAt: new Date()` becomes a `now`
parameter).
-/

/-- One element of a vacancy's `applications` array
(`{ _id, teacher, status, appliedAt }`). -/
structure Application where
  appId : Nat
  teacher : Nat
  status : String
  appliedAt : Nat
  deriving DecidableEq

/-- A `Vacancy` document.  Descriptive fields (title, subject, …) are opaque
passthrough and are omitted; `featured` is kept as in the schema. -/
structure Vacancy where
  vid : Nat
  status : String
  featured : Bool
  applications : List Application
  deriving DecidableEq

/-- The error responses the two apply handlers can produce. -/
inductive ApplyError where
  | vacancyNotFoundOrNotOpen
  | alreadyApplied
  | maxApplications
  deriving DecidableEq

/-- The literal HTTP status code and message each apply error is sent with. -/
def applyErrorResponse : ApplyError → Nat × String
  | .vacancyNotFoundOrNotOpen => (404, "Vacancy not found or not open")
  | .alreadyApplied => (400, "You have already applied for this vacancy")
  | .maxApplications => (400, "This vacancy has reached maximum applications")

/-- The error response of the status-update handlers. -/
inductive StatusError where
  | applicationNotFound
  deriving DecidableEq

/-- Writing one vacancy document back to the store
(`existingVacancy.save()` / the write of a `findOneAndUpdate`): every stored
document with that `_id` becomes the updated document. -/
def updateVacancy (store : List Vacancy) (v : Vacancy) : List Vacancy :=
  store.map fun w => if w.vid == v.vid then v else w

/-- `Vacancy.findOne({ _id: vacancyId, status: 'open' })`. -/
def findOpenVacancy (store : List Vacancy) (vacancyId : Nat) : Option Vacancy :=
  store.find? fun v => v.vid == vacancyId && v.status == "open"

/-- `applications.some(app => app.teacher … === teacherId)` — the duplicate
check of both apply handlers (any status counts). -/
def hasTeacher (apps : List Application) (teacherId : Nat) : Bool :=
  apps.any fun a => a.teacher == teacherId

/-- `POST /apply-vacancy/:id` from `routes/teacherApply.js` (lines 240–304):
look up the vacancy with `status: 'open'` (404 "Vacancy not found or not
open" otherwise), reject a duplicate applicant, then push
`{ teacher, status: 'pending', appliedAt: new Date() }` with NO capacity
check; if the array length is now exactly 5, set the vacancy `closed`; save.
Returns the saved store and the saved vacancy (the response carries
`vacancyStatus` and the updated `applications`). -/
def applyVacancyTeacherApply (store : List Vacancy)
    (vacancyId teacherId now newAppId : Nat) :
    Except ApplyError (List Vacancy × Vacancy) :=
  match findOpenVacancy store vacancyId with
  | none => .error .vacancyNotFoundOrNotOpen
  | some v =>
    if hasTeacher v.applications teacherId then
      .error .alreadyApplied
    else
      let apps := v.applications ++ [⟨newAppId, teacherId, "pending", now⟩]
      let st := if apps.length == 5 then "closed" else v.status
      let updated : Vacancy := ⟨v.vid, st, v.featured, apps⟩
      .ok (updateVacancy store updated, updated)

/-- `POST /apply-vacancy/:id` from `routes/vacancyRoutes.js` (lines 263–321):
same lookup and duplicate check, then reject with "maximum applications" when
`applications.length >= 5`, then push `{ teacher, status: 'pending' }` and
save — with NO auto-close of the vacancy.  (The handler omits `appliedAt`;
the schema default supplies the timestamp, modelled by `now`.) -/
def applyVacancyVacancyRoutes (store : List Vacancy)
    (vacancyId teacherId now newAppId : Nat) :
    Except ApplyError (List Vacancy × Vacancy) :=
  match findOpenVacancy store vacancyId with
  | none => .error .vacancyNotFoundOrNotOpen
  | some v =>
    if hasTeacher v.applications teacherId then
      .error .alreadyApplied
    else if 5 ≤ v.applications.length then
      .error .maxApplications
    else
      let apps := v.applications ++ [⟨newAppId, teacherId, "pending", now⟩]
      let updated : Vacancy := ⟨v.vid, v.status, v.featured, apps⟩
      .ok (updateVacancy store updated, updated)

/-- Positional `$` update `{ $set: { 'applications.$.status': s } }`: set the
status of the FIRST array element whose `_id` matches. -/
def setStatusFirst (apps : List Application) (applicationId : Nat) (s : String) :
    List Application :=
  match apps with
  | [] => []
  | a :: rest =>
    if a.appId == applicationId then { a with status := s } :: rest
    else a :: setStatusFirst rest applicationId s

/-- Per-element effect of the `arrayFilters` cascade update: an element is
set to `rejected` exactly when `elem._id ≠ applicationId ∧ elem.status =
'pending'`. -/
def rejectElem (applicationId : Nat) (a : Application) : Application :=
  if a.appId != applicationId && a.status == "pending" then
    { a with status := "rejected" }
  else a

/-- The `arrayFilters` update of the accept cascade:
`{ 'applications.$[elem].status': 'rejected' }` with
`elem._id ≠ applicationId ∧ elem.status = 'pending'`. -/
def rejectOtherPending (apps : List Application) (applicationId : Nat) :
    List Application :=
  apps.map (rejectElem applicationId)

/-- `{ 'applications._id': applicationId }` — does this vacancy embed the
application? -/
def hasApplication (v : Vacancy) (applicationId : Nat) : Bool :=
  v.applications.any fun a => a.appId == applicationId

/-- The per-element effect of the positional status write. -/
def setStatusFun (applicationId : Nat) (s : String) (a : Application) : Application :=
  if a.appId == applicationId then { a with status := s } else a

/-- The combined per-element effect of accepting one application: the target
becomes `accepted`, every other pending application becomes `rejected`, and
everything else (in particular an already rejected application) is unchanged. -/
def acceptCascade (applicationId : Nat) (a : Application) : Application :=
  if a.appId == applicationId then { a with status := "accepted" }
  else if a.status == "pending" then { a with status := "rejected" }
  else a

/-- `PUT /application-status/:applicationId` from `routes/teacherApply.js`
(lines 555–617): `findOneAndUpdate` the vacancy embedding the application,
setting that application's status to the request's string verbatim and — when
the string is `'accepted'` — also setting the vacancy `closed`; 404 when no
vacancy matches; then, when the string is `'accepted'`, a second update
rejects every OTHER application whose status is `'pending'`.  Returns the
committed store and the vacancy as returned to the client (the result of the
first update, which the response's `data` field is read from). -/
def applicationStatusTeacherApply (store : List Vacancy)
    (applicationId : Nat) (s : String) :
    Except StatusError (List Vacancy × Vacancy) :=
  match store.find? (fun v => hasApplication v applicationId) with
  | none => .error .applicationNotFound
  | some v =>
    let v1 : Vacancy :=
      ⟨v.vid, if s == "accepted" then "closed" else v.status, v.featured,
        setStatusFirst v.applications applicationId s⟩
    let store1 := updateVacancy store v1
    if s == "accepted" then
      let v2 : Vacancy :=
        ⟨v1.vid, v1.status, v1.featured,
          rejectOtherPending v1.applications applicationId⟩
      .ok (updateVacancy store1 v2, v1)
    else
      .ok (store1, v1)

/-- `PUT /:vacancyId/applications/:applicationId/status` from
`routes/vacancyRoutes.js` (lines 198–234): `findOneAndUpdate` keyed by both
ids, setting the application's status to the request's string verbatim; no
cascade, no vacancy-status change; 404 when nothing matches. -/
def applicationStatusVacancyRoutes (store : List Vacancy)
    (vacancyId applicationId : Nat) (s : String) :
    Except StatusError (List Vacancy) :=
  match store.find? (fun v => v.vid == vacancyId && hasApplication v applicationId) with
  | none => .error .applicationNotFound
  | some v =>
    .ok (updateVacancy store
      ⟨v.vid, v.status, v.featured, setStatusFirst v.applications applicationId s⟩)

/-- `GET /available-vacancies` from `routes/teacherApply.js` (lines 196–233):
`Vacancy.find({ status: 'open', $expr: size(applications) < 5,
'applications.teacher': { $ne: currentTeacherId } })`.  On an array field,
`$ne` matches exactly the documents in which NO element equals the value. -/
def availableVacancies (store : List Vacancy) (teacherId : Nat) : List Vacancy :=
  store.filter fun v =>
    v.status == "open" && decide (v.applications.length < 5) &&
      !(hasTeacher v.applications teacherId)

/-- Read back the status of an application: the first matching element of the
first vacancy embedding the id (how every reader in the code locates it). -/
def statusOfApplication (store : List Vacancy) (applicationId : Nat) : Option String :=
  (store.find? (fun v => hasApplication v applicationId)).bind fun v =>
    (v.applications.find? (fun a => a.appId == applicationId)).map (fun a => a.status)

/-! ### Concrete stores used to evaluate the handlers -/

/-- Five pending applications from teachers 1–5. -/
def fiveApps : List Application :=
  [⟨1, 1, "pending", 0⟩, ⟨2, 2, "pending", 0⟩, ⟨3, 3, "pending", 0⟩,
   ⟨4, 4, "pending", 0⟩, ⟨5, 5, "pending", 0⟩]

/-- An open vacancy already holding 5 applications (reachable: the
`vacancyRoutes.js` apply path admits a 5th application without closing, and
`PATCH /:id/status` can reopen any vacancy). -/
def openFullVacancy : Vacancy := ⟨1, "open", false, fiveApps⟩

/-- Five applications, one of them rejected. -/
def fiveAppsOneRejected : List Application :=
  [⟨1, 1, "pending", 0⟩, ⟨2, 2, "pending", 0⟩, ⟨3, 3, "rejected", 0⟩,
   ⟨4, 4, "pending", 0⟩, ⟨5, 5, "pending", 0⟩]

/-- Four pending applications from teachers 1–4. -/
def fourApps : List Application :=
  [⟨1, 1, "pending", 0⟩, ⟨2, 2, "pending", 0⟩, ⟨3, 3, "pending", 0⟩,
   ⟨4, 4, "pending", 0⟩]

/-! ### Helper lemmas about the store primitives -/

theorem find?_cons_eq_some {α : Type} (p : α → Bool) (a : α) (l : List α)
    (h : p a = true) : List.find? p (a :: l) = some a := by
  simp [List.find?_cons, h]

theorem find?_cons_eq_rest {α : Type} (p : α → Bool) (a : α) (l : List α)
    (h : p a = false) : List.find? p (a :: l) = List.find? p l := by
  simp [List.find?_cons, h]

theorem find_vid_updateVacancy (store : List Vacancy) (u : Vacancy)
    (h : ∃ w ∈ store, w.vid = u.vid) :
    (updateVacancy store u).find? (fun x => x.vid == u.vid) = some u := by
  induction store with
  | nil => simp at h
  | cons w rest ih =>
    simp only [updateVacancy, List.map_cons]
    by_cases hw : (w.vid == u.vid) = true
    · rw [if_pos hw]
      exact find?_cons_eq_some _ u _ (by simp)
    · rw [if_neg hw]
      have hwf : (w.vid == u.vid) = false := by simpa using hw
      rw [find?_cons_eq_rest _ w _ hwf]
      apply ih
      rcases h with ⟨x, hx, hvx⟩
      rcases List.mem_cons.mp hx with hx | hx
      · subst hx
        exact absurd (by simp [hvx]) hw
      · exact ⟨x, hx, hvx⟩

theorem find_hasApp_updateVacancy (store : List Vacancy) (applicationId : Nat)
    (v u : Vacancy)
    (hfind : store.find? (fun w => hasApplication w applicationId) = some v)
    (hvid : u.vid = v.vid) (hu : hasApplication u applicationId = true) :
    (updateVacancy store u).find? (fun w => hasApplication w applicationId) = some u := by
  induction store with
  | nil => simp at hfind
  | cons w rest ih =>
    simp only [updateVacancy, List.map_cons]
    by_cases hw : (w.vid == u.vid) = true
    · rw [if_pos hw]
      exact find?_cons_eq_some _ u _ hu
    · rw [if_neg hw]
      cases hap : hasApplication w applicationId with
      | true =>
        rw [find?_cons_eq_some _ w _ hap] at hfind
        have hwv : w = v := by injection hfind
        rw [hwv, ← hvid] at hw
        simp at hw
      | false =>
        rw [find?_cons_eq_rest _ w _ hap] at hfind
        rw [find?_cons_eq_rest _ w _ hap]
        exact ih hfind

theorem setStatusFun_of_target (applicationId : Nat) (s : String) (a : Application)
    (h : a.appId = applicationId) :
    setStatusFun applicationId s a = { a with status := s } := by
  unfold setStatusFun
  rw [if_pos (show (a.appId == applicationId) = true by simpa using h)]

theorem setStatusFun_of_other (applicationId : Nat) (s : String) (a : Application)
    (h : a.appId ≠ applicationId) : setStatusFun applicationId s a = a := by
  unfold setStatusFun
  rw [if_neg (show ¬((a.appId == applicationId) = true) by simp [h])]

theorem map_setStatusFun_of_not_mem (apps : List Application) (applicationId : Nat)
    (s : String) (h : ∀ a ∈ apps, a.appId ≠ applicationId) :
    apps.map (setStatusFun applicationId s) = apps := by
  induction apps with
  | nil => rfl
  | cons a rest ih =>
    simp only [List.map_cons]
    rw [setStatusFun_of_other _ _ _ (h a (by simp)),
      ih fun b hb => h b (by simp [hb])]

theorem setStatusFirst_eq_map (apps : List Application) (applicationId : Nat)
    (s : String) (hnodup : (apps.map fun a => a.appId).Nodup) :
    setStatusFirst apps applicationId s = apps.map (setStatusFun applicationId s) := by
  induction apps with
  | nil => rfl
  | cons a rest ih =>
    simp only [List.map_cons, List.nodup_cons] at hnodup
    by_cases hA : (a.appId == applicationId) = true
    · have haid : a.appId = applicationId := by simpa using hA
      simp only [setStatusFirst, if_pos hA, List.map_cons]
      rw [setStatusFun_of_target _ _ _ haid]
      rw [map_setStatusFun_of_not_mem rest applicationId s ?_]
      intro b hb hbid
      have hmem : a.appId ∈ List.map (fun a => a.appId) rest := by
        rw [haid, ← hbid]
        exact List.mem_map_of_mem _ hb
      exact absurd hmem hnodup.1
    · have haid : a.appId ≠ applicationId := by simpa using hA
      simp only [setStatusFirst, if_neg hA, List.map_cons]
      rw [setStatusFun_of_other _ _ _ haid, ih hnodup.2]

theorem rejectElem_appId (applicationId : Nat) (a : Application) :
    (rejectElem applicationId a).appId = a.appId := by
  unfold rejectElem
  by_cases h : (a.appId != applicationId && a.status == "pending") = true
  · rw [if_pos h]
  · rw [if_neg h]

theorem rejectElem_of_target (applicationId : Nat) (a : Application)
    (h : a.appId = applicationId) : rejectElem applicationId a = a := by
  unfold rejectElem
  rw [if_neg (show ¬((a.appId != applicationId && a.status == "pending") = true) by
    simp [h])]

theorem rejectElem_of_pending (applicationId : Nat) (a : Application)
    (h : a.appId ≠ applicationId) (hp : a.status = "pending") :
    rejectElem applicationId a = { a with status := "rejected" } := by
  unfold rejectElem
  rw [if_pos (show (a.appId != applicationId && a.status == "pending") = true by
    simp [h, hp])]

theorem rejectElem_of_not_pending (applicationId : Nat) (a : Application)
    (h : a.status ≠ "pending") : rejectElem applicationId a = a := by
  unfold rejectElem
  rw [if_neg (show ¬((a.appId != applicationId && a.status == "pending") = true) by
    simp [h])]

theorem rejectOtherPending_map_setStatus (apps : List Application) (applicationId : Nat) :
    rejectOtherPending (apps.map (setStatusFun applicationId "accepted")) applicationId =
      apps.map (acceptCascade applicationId) := by
  simp only [rejectOtherPending, List.map_map]
  apply List.map_congr_left
  intro a _
  simp only [Function.comp_apply]
  by_cases hA : a.appId = applicationId
  · rw [setStatusFun_of_target _ _ _ hA,
      rejectElem_of_target _ _ (show ({ a with status := "accepted" } : Application).appId = applicationId from hA)]
    unfold acceptCascade
    rw [if_pos (show (a.appId == applicationId) = true by simpa using hA)]
  · by_cases hp : a.status = "pending"
    · rw [setStatusFun_of_other _ _ _ hA, rejectElem_of_pending _ _ hA hp]
      unfold acceptCascade
      rw [if_neg (show ¬((a.appId == applicationId) = true) by simp [hA]),
        if_pos (show (a.status == "pending") = true by simpa using hp)]
    · rw [setStatusFun_of_other _ _ _ hA, rejectElem_of_not_pending _ _ hp]
      unfold acceptCascade
      rw [if_neg (show ¬((a.appId == applicationId) = true) by simp [hA]),
        if_neg (show ¬((a.status == "pending") = true) by simp [hp])]

theorem find?_setStatusFirst (apps : List Application) (applicationId : Nat) (s : String)
    (h : apps.any (fun a => a.appId == applicationId) = true) :
    ((setStatusFirst apps applicationId s).find? (fun a => a.appId == applicationId)).map
      (fun a => a.status) = some s := by
  induction apps with
  | nil => simp at h
  | cons a rest ih =>
    by_cases hA : (a.appId == applicationId) = true
    · simp only [setStatusFirst, if_pos hA]
      rw [find?_cons_eq_some (fun b => b.appId == applicationId)
        ⟨a.appId, a.teacher, s, a.appliedAt⟩ rest hA]
      rfl
    · have hAf : (a.appId == applicationId) = false := by simpa using hA
      simp only [setStatusFirst, if_neg hA]
      rw [find?_cons_eq_rest (fun b => b.appId == applicationId) a
        (setStatusFirst rest applicationId s) hAf]
      simp only [List.any_cons, hAf, Bool.false_or] at h
      exact ih h

theorem find?_rejectOtherPending (apps : List Application) (applicationId : Nat) :
    (rejectOtherPending apps applicationId).find? (fun a => a.appId == applicationId) =
      apps.find? (fun a => a.appId == applicationId) := by
  induction apps with
  | nil => rfl
  | cons a rest ih =>
    simp only [rejectOtherPending, List.map_cons] at ih ⊢
    by_cases hA : a.appId = applicationId
    · have hAb : (a.appId == applicationId) = true := by simpa using hA
      rw [rejectElem_of_target _ _ hA,
        find?_cons_eq_some (fun b => b.appId == applicationId) a
          (List.map (rejectElem applicationId) rest) hAb,
        find?_cons_eq_some (fun b => b.appId == applicationId) a rest hAb]
    · have hAf : (a.appId == applicationId) = false := by simpa using hA
      have hAr : ((rejectElem applicationId a).appId == applicationId) = false := by
        rw [rejectElem_appId]
        exact hAf
      rw [find?_cons_eq_rest (fun b => b.appId == applicationId)
          (rejectElem applicationId a) (List.map (rejectElem applicationId) rest) hAr,
        find?_cons_eq_rest (fun b => b.appId == applicationId) a rest hAf]
      exact ih

theorem hasApp_setStatusFirst (apps : List Application) (applicationId : Nat) (s : String) :
    (setStatusFirst apps applicationId s).any (fun a => a.appId == applicationId) =
      apps.any (fun a => a.appId == applicationId) := by
  induction apps with
  | nil => rfl
  | cons a rest ih =>
    by_cases hA : (a.appId == applicationId) = true
    · simp only [setStatusFirst, if_pos hA, List.any_cons]
    · have hAf : (a.appId == applicationId) = false := by simpa using hA
      simp only [setStatusFirst, hAf, Bool.false_eq_true, if_false, List.any_cons,
        Bool.false_or]
      exact ih

theorem hasApp_rejectOtherPending (apps : List Application) (applicationId : Nat) :
    (rejectOtherPending apps applicationId).any (fun a => a.appId == applicationId) =
      apps.any (fun a => a.appId == applicationId) := by
  induction apps with
  | nil => rfl
  | cons a rest ih =>
    simp only [rejectOtherPending, List.map_cons, List.any_cons] at ih ⊢
    rw [rejectElem_appId, ih]

theorem self_mem_updateVacancy (store : List Vacancy) (v u : Vacancy)
    (hmem : v ∈ store) (hvid : v.vid = u.vid) : u ∈ updateVacancy store u := by
  unfold updateVacancy
  have h := List.mem_map_of_mem (fun w => if w.vid == u.vid then u else w) hmem
  simpa [hvid] using h

/-! ### Claim theorems -/

/-- Claim C1 (code bug): the `teacherApply.js` apply handler has no capacity
check, so on an open vacancy already holding 5 applications a 6th application
from a new teacher is appended and the call succeeds — the committed vacancy
holds 6 applications, violating the `len(applications) ≤ 5` invariant the
claim states. -/
theorem apply_teacherRoute_appends_sixth_application :
    applyVacancyTeacherApply [openFullVacancy] 1 6 100 6 =
      .ok ([⟨1, "open", false, fiveApps ++ [⟨6, 6, "pending", 100⟩]⟩],
           ⟨1, "open", false, fiveApps ++ [⟨6, 6, "pending", 100⟩]⟩) ∧
    (fiveApps ++ [(⟨6, 6, "pending", 100⟩ : Application)]).length = 6 := by
  exact ⟨rfl, rfl⟩

/-- Claim C2 (code bug): on an open vacancy at capacity (5 applications, one
of them rejected), the `teacherApply.js` apply handler does not fail with the
capacity error: it succeeds and appends a 6th application.  The claim says
every such call fails with `CapacityExceeded` and appends nothing. -/
theorem apply_teacherRoute_succeeds_at_capacity_with_rejected :
    applyVacancyTeacherApply [⟨2, "open", false, fiveAppsOneRejected⟩] 2 6 100 6 =
      .ok ([⟨2, "open", false, fiveAppsOneRejected ++ [⟨6, 6, "pending", 100⟩]⟩],
           ⟨2, "open", false, fiveAppsOneRejected ++ [⟨6, 6, "pending", 100⟩]⟩) ∧
    applyVacancyTeacherApply [⟨2, "open", false, fiveAppsOneRejected⟩] 2 6 100 6 ≠
      .error .maxApplications := by
  refine ⟨rfl, ?_⟩
  intro h
  exact Except.noConfusion h

/-- Claim C3 (code bug): the `vacancyRoutes.js` apply handler admits the 5th
application without flipping the vacancy to `closed`: on an open vacancy with
exactly 4 applications the committed result has 5 applications and status
still `"open"`, while the claim requires the same observable result to have
status `closed`. -/
theorem apply_adminRoute_fifth_application_leaves_vacancy_open :
    applyVacancyVacancyRoutes [⟨1, "open", false, fourApps⟩] 1 5 100 5 =
      .ok ([⟨1, "open", false, fourApps ++ [⟨5, 5, "pending", 100⟩]⟩],
           ⟨1, "open", false, fourApps ++ [⟨5, 5, "pending", 100⟩]⟩) ∧
    (fourApps ++ [(⟨5, 5, "pending", 100⟩ : Application)]).length = 5 := by
  exact ⟨rfl, rfl⟩

/-- Claim C4 counterexample: the claim as stated quantifies over every apply
call whose vacancy already contains an application of the same teacher and
says the call fails with `DuplicateApplication`.  On a CLOSED vacancy
containing the teacher's application, the call instead fails with the 404
"Vacancy not found or not open" response (the open-status lookup runs before
the duplicate check), not the duplicate error. -/
theorem duplicate_on_closed_vacancy_not_reported_as_duplicate :
    applyVacancyTeacherApply [⟨1, "closed", false, [⟨1, 1, "pending", 0⟩]⟩] 1 1 10 2 =
      .error .vacancyNotFoundOrNotOpen ∧
    applyVacancyVacancyRoutes [⟨1, "closed", false, [⟨1, 1, "pending", 0⟩]⟩] 1 1 10 2 =
      .error .vacancyNotFoundOrNotOpen ∧
    ApplyError.vacancyNotFoundOrNotOpen ≠ ApplyError.alreadyApplied := by
  exact ⟨rfl, rfl, by decide⟩

/-- Claim C6 (code bug): the status-update handler performs no transition
validation.  An application whose status is already terminal (`"accepted"`)
is overwritten to `"rejected"` and the call reports success, where the claim
(and spec §4.3) requires failure with `InvalidTransition` and an unchanged
application. -/
theorem status_update_overwrites_terminal_status :
    applicationStatusTeacherApply [⟨1, "open", false, [⟨1, 1, "accepted", 0⟩]⟩] 1 "rejected" =
      .ok ([⟨1, "open", false, [⟨1, 1, "rejected", 0⟩]⟩],
           ⟨1, "open", false, [⟨1, 1, "rejected", 0⟩]⟩) := by
  rfl

/-- Claim C7 (code bug): accepting a pending application while a sibling is
already `"accepted"` is not detected: the handler succeeds and commits a
vacancy with TWO accepted applications (the cascade only rejects pending
siblings), where the claim requires failure with `ConflictingAcceptance` and
no change. -/
theorem accept_with_existing_accepted_yields_two_accepted :
    applicationStatusTeacherApply
        [⟨1, "open", false, [⟨1, 1, "accepted", 0⟩, ⟨2, 2, "pending", 0⟩]⟩] 2 "accepted" =
      .ok ([⟨1, "closed", false, [⟨1, 1, "accepted", 0⟩, ⟨2, 2, "accepted", 0⟩]⟩],
           ⟨1, "closed", false, [⟨1, 1, "accepted", 0⟩, ⟨2, 2, "accepted", 0⟩]⟩) := by
  rfl

/-- Claim C8 counterexample: applying to an existing but closed vacancy and
applying with a vacancy id that does not exist produce the very same error
value — the single 404 response "Vacancy not found or not open" — so the
failure on a closed vacancy is NOT an error distinct from `NotFound` as the
claim states. -/
theorem closed_and_missing_vacancy_same_error :
    applyVacancyTeacherApply [⟨1, "closed", false, []⟩] 1 7 0 1 =
      .error .vacancyNotFoundOrNotOpen ∧
    applyVacancyTeacherApply [⟨1, "closed", false, []⟩] 9 7 0 1 =
      .error .vacancyNotFoundOrNotOpen ∧
    applyErrorResponse .vacancyNotFoundOrNotOpen =
      (404, "Vacancy not found or not open") := by
  exact ⟨rfl, rfl, rfl⟩

/-- Claim C4 (amended): for every apply call that finds an OPEN vacancy whose
application list contains any entry whose teacher equals the applying
teacherId — whatever that entry's status — both apply handlers fail with the
"already applied" (DuplicateApplication) error and append nothing. -/
theorem apply_duplicate_fails_on_open_vacancy
    (store : List Vacancy) (vacancyId teacherId now newAppId : Nat)
    (v : Vacancy) (hfind : findOpenVacancy store vacancyId = some v)
    (a : Application) (ha : a ∈ v.applications) (hteach : a.teacher = teacherId) :
    applyVacancyTeacherApply store vacancyId teacherId now newAppId =
      .error .alreadyApplied ∧
    applyVacancyVacancyRoutes store vacancyId teacherId now newAppId =
      .error .alreadyApplied := by
  have hdup : hasTeacher v.applications teacherId = true := by
    simp only [hasTeacher, List.any_eq_true]
    exact ⟨a, ha, by simp [hteach]⟩
  constructor <;>
    simp [applyVacancyTeacherApply, applyVacancyVacancyRoutes, hfind, hdup]

/-- Witness for `apply_duplicate_fails_on_open_vacancy`: teacher 3 already
holds a REJECTED application on open vacancy 1, and a repeat apply fails with
the duplicate error on both routes. -/
theorem apply_duplicate_fails_on_open_vacancy_witness :
    applyVacancyTeacherApply [⟨1, "open", false, [⟨1, 3, "rejected", 0⟩]⟩] 1 3 50 2 =
      .error .alreadyApplied ∧
    applyVacancyVacancyRoutes [⟨1, "open", false, [⟨1, 3, "rejected", 0⟩]⟩] 1 3 50 2 =
      .error .alreadyApplied :=
  apply_duplicate_fails_on_open_vacancy
    [⟨1, "open", false, [⟨1, 3, "rejected", 0⟩]⟩] 1 3 50 2
    ⟨1, "open", false, [⟨1, 3, "rejected", 0⟩]⟩ rfl
    ⟨1, 3, "rejected", 0⟩ (by simp) rfl

/-- Claim C8 (amended): an apply call on an existing vacancy whose status is
not `open` fails and appends nothing, but with the same 404 "Vacancy not
found or not open" response that a nonexistent vacancy id produces — the code
does not distinguish a VacancyClosed error from NotFound. -/
theorem apply_on_closed_vacancy_fails_like_notFound
    (store : List Vacancy) (vacancyId teacherId now newAppId : Nat)
    (hex : ∃ v ∈ store, v.vid = vacancyId ∧ v.status ≠ "open")
    (hnoopen : ∀ v ∈ store, v.vid = vacancyId → v.status ≠ "open") :
    applyVacancyTeacherApply store vacancyId teacherId now newAppId =
      .error .vacancyNotFoundOrNotOpen ∧
    applyVacancyVacancyRoutes store vacancyId teacherId now newAppId =
      .error .vacancyNotFoundOrNotOpen := by
  have hnone : findOpenVacancy store vacancyId = none := by
    unfold findOpenVacancy
    rw [List.find?_eq_none]
    intro v hv hcontra
    have hsplit := (Bool.and_eq_true _ _).mp hcontra
    have h1 : v.vid = vacancyId := by simpa using hsplit.1
    have h2 : v.status = "open" := by simpa using hsplit.2
    exact hnoopen v hv h1 h2
  constructor <;>
    simp [applyVacancyTeacherApply, applyVacancyVacancyRoutes, hnone]

/-- Witness for `apply_on_closed_vacancy_fails_like_notFound`: vacancy 4
exists and is closed; applying yields the common 404 error on both routes. -/
theorem apply_on_closed_vacancy_fails_like_notFound_witness :
    applyVacancyTeacherApply [⟨4, "closed", false, fourApps⟩] 4 9 0 5 =
      .error .vacancyNotFoundOrNotOpen ∧
    applyVacancyVacancyRoutes [⟨4, "closed", false, fourApps⟩] 4 9 0 5 =
      .error .vacancyNotFoundOrNotOpen :=
  apply_on_closed_vacancy_fails_like_notFound
    [⟨4, "closed", false, fourApps⟩] 4 9 0 5
    ⟨⟨4, "closed", false, fourApps⟩, by simp, rfl, by decide⟩
    (by decide)

/-- Claim C9: the available-vacancies listing of `routes/teacherApply.js`
returns exactly the stored vacancies that are open, hold fewer than 5
applications, and contain no application of the requesting teacher. -/
theorem availableVacancies_mem_iff (store : List Vacancy) (teacherId : Nat)
    (v : Vacancy) :
    v ∈ availableVacancies store teacherId ↔
      v ∈ store ∧ v.status = "open" ∧ v.applications.length < 5 ∧
        ∀ a ∈ v.applications, a.teacher ≠ teacherId := by
  simp [availableVacancies, List.mem_filter, hasTeacher, and_assoc]

/-- Claim C5: accepting a pending application commits, in one resulting
store, the target application as `accepted`, every other pending application
as `rejected`, every already-rejected application unchanged (this is exactly
`acceptCascade`), and the vacancy's status as `closed`. -/
theorem accept_pending_cascades_and_closes
    (store : List Vacancy) (applicationId : Nat) (v : Vacancy)
    (hfind : store.find? (fun w => hasApplication w applicationId) = some v)
    (hnodup : (v.applications.map fun a => a.appId).Nodup)
    (a : Application) (ha : a ∈ v.applications) (haid : a.appId = applicationId)
    (hpend : a.status = "pending") :
    ∃ committed vResp,
      applicationStatusTeacherApply store applicationId "accepted" =
        .ok (committed, vResp) ∧
      committed.find? (fun w => w.vid == v.vid) =
        some ⟨v.vid, "closed", v.featured,
          v.applications.map (acceptCascade applicationId)⟩ := by
  have hmem : v ∈ store := List.mem_of_find?_eq_some hfind
  have hmap : setStatusFirst v.applications applicationId "accepted" =
      v.applications.map (setStatusFun applicationId "accepted") :=
    setStatusFirst_eq_map _ _ _ hnodup
  have hcasc : rejectOtherPending
      (setStatusFirst v.applications applicationId "accepted") applicationId =
      v.applications.map (acceptCascade applicationId) := by
    rw [hmap, rejectOtherPending_map_setStatus]
  refine ⟨updateVacancy
      (updateVacancy store
        ⟨v.vid, "closed", v.featured,
          setStatusFirst v.applications applicationId "accepted"⟩)
      ⟨v.vid, "closed", v.featured,
        rejectOtherPending (setStatusFirst v.applications applicationId "accepted")
          applicationId⟩,
    ⟨v.vid, "closed", v.featured,
      setStatusFirst v.applications applicationId "accepted"⟩, ?_, ?_⟩
  · simp [applicationStatusTeacherApply, hfind]
  · rw [hcasc]
    exact find_vid_updateVacancy _
      ⟨v.vid, "closed", v.featured, v.applications.map (acceptCascade applicationId)⟩
      ⟨⟨v.vid, "closed", v.featured,
          setStatusFirst v.applications applicationId "accepted"⟩,
        self_mem_updateVacancy store v
          ⟨v.vid, "closed", v.featured,
            setStatusFirst v.applications applicationId "accepted"⟩ hmem rfl, rfl⟩

/-- Witness for `accept_pending_cascades_and_closes`: vacancy 1 holds pending
applications of teachers 1 and 2 and a rejected one of teacher 3; accepting
application 1 commits teacher 1 accepted, teacher 2 rejected, teacher 3
untouched, vacancy closed. -/
theorem accept_pending_cascades_and_closes_witness :
    ∃ committed vResp,
      applicationStatusTeacherApply
          [⟨1, "open", false,
            [⟨1, 1, "pending", 0⟩, ⟨2, 2, "pending", 0⟩, ⟨3, 3, "rejected", 0⟩]⟩]
          1 "accepted" =
        .ok (committed, vResp) ∧
      committed.find? (fun w => w.vid == 1) =
        some ⟨1, "closed", false,
          [(⟨1, 1, "pending", 0⟩ : Application), ⟨2, 2, "pending", 0⟩,
            ⟨3, 3, "rejected", 0⟩].map (acceptCascade 1)⟩ :=
  accept_pending_cascades_and_closes
    [⟨1, "open", false,
      [⟨1, 1, "pending", 0⟩, ⟨2, 2, "pending", 0⟩, ⟨3, 3, "rejected", 0⟩]⟩]
    1
    ⟨1, "open", false,
      [⟨1, 1, "pending", 0⟩, ⟨2, 2, "pending", 0⟩, ⟨3, 3, "rejected", 0⟩]⟩
    rfl (by decide) ⟨1, 1, "pending", 0⟩ (by simp) rfl rfl

/-- Claim C10: the per-application status-update operation stores ANY string
`s` verbatim as the located application's status and reports success, on both
the `teacherApply.js` route (with its side effects) and the
`vacancyRoutes.js` route — nothing restricts `s` to the documented
enumeration. -/
theorem status_update_stores_any_string_verbatim
    (store : List Vacancy) (vacancyId applicationId : Nat) (s : String)
    (v : Vacancy)
    (hfindTA : store.find? (fun w => hasApplication w applicationId) = some v)
    (hfindVR : store.find?
      (fun w => w.vid == vacancyId && hasApplication w applicationId) = some v) :
    (∃ committed vResp,
        applicationStatusTeacherApply store applicationId s = .ok (committed, vResp) ∧
        statusOfApplication committed applicationId = some s) ∧
    (∃ committed2,
        applicationStatusVacancyRoutes store vacancyId applicationId s =
          .ok committed2 ∧
        statusOfApplication committed2 applicationId = some s) := by
  have happ : v.applications.any (fun a => a.appId == applicationId) = true := by
    have h := List.find?_some hfindTA
    simpa [hasApplication] using h
  have happ1 : ∀ st : String,
      hasApplication ⟨v.vid, st, v.featured,
        setStatusFirst v.applications applicationId s⟩ applicationId = true := by
    intro st
    simpa [hasApplication] using
      (hasApp_setStatusFirst v.applications applicationId s).trans happ
  constructor
  · by_cases hs : (s == "accepted") = true
    · have heq : applicationStatusTeacherApply store applicationId s =
          .ok (updateVacancy
              (updateVacancy store
                ⟨v.vid, "closed", v.featured,
                  setStatusFirst v.applications applicationId s⟩)
              ⟨v.vid, "closed", v.featured,
                rejectOtherPending (setStatusFirst v.applications applicationId s)
                  applicationId⟩,
            ⟨v.vid, "closed", v.featured,
              setStatusFirst v.applications applicationId s⟩) := by
        simp [applicationStatusTeacherApply, hfindTA, hs]
      refine ⟨_, _, heq, ?_⟩
      have happ2 : hasApplication ⟨v.vid, "closed", v.featured,
          rejectOtherPending (setStatusFirst v.applications applicationId s)
            applicationId⟩ applicationId = true := by
        simpa [hasApplication] using
          (hasApp_rejectOtherPending
            (setStatusFirst v.applications applicationId s) applicationId).trans
          ((hasApp_setStatusFirst v.applications applicationId s).trans happ)
      have hf1 := find_hasApp_updateVacancy store applicationId v
        ⟨v.vid, "closed", v.featured,
          setStatusFirst v.applications applicationId s⟩ hfindTA rfl (happ1 "closed")
      have hf2 := find_hasApp_updateVacancy
        (updateVacancy store
          ⟨v.vid, "closed", v.featured,
            setStatusFirst v.applications applicationId s⟩)
        applicationId
        ⟨v.vid, "closed", v.featured,
          setStatusFirst v.applications applicationId s⟩
        ⟨v.vid, "closed", v.featured,
          rejectOtherPending (setStatusFirst v.applications applicationId s)
            applicationId⟩
        hf1 rfl happ2
      unfold statusOfApplication
      rw [hf2]
      show ((rejectOtherPending (setStatusFirst v.applications applicationId s)
          applicationId).find? (fun a => a.appId == applicationId)).map
          (fun a => a.status) = some s
      rw [find?_rejectOtherPending]
      exact find?_setStatusFirst v.applications applicationId s happ
    · have hsf : (s == "accepted") = false := by simpa using hs
      have heq : applicationStatusTeacherApply store applicationId s =
          .ok (updateVacancy store
              ⟨v.vid, v.status, v.featured,
                setStatusFirst v.applications applicationId s⟩,
            ⟨v.vid, v.status, v.featured,
              setStatusFirst v.applications applicationId s⟩) := by
        simp [applicationStatusTeacherApply, hfindTA, hsf]
      refine ⟨_, _, heq, ?_⟩
      have hf1 := find_hasApp_updateVacancy store applicationId v
        ⟨v.vid, v.status, v.featured,
          setStatusFirst v.applications applicationId s⟩ hfindTA rfl (happ1 v.status)
      unfold statusOfApplication
      rw [hf1]
      show ((setStatusFirst v.applications applicationId s).find?
          (fun a => a.appId == applicationId)).map (fun a => a.status) = some s
      exact find?_setStatusFirst v.applications applicationId s happ
  · have heq : applicationStatusVacancyRoutes store vacancyId applicationId s =
        .ok (updateVacancy store
          ⟨v.vid, v.status, v.featured,
            setStatusFirst v.applications applicationId s⟩) := by
      simp [applicationStatusVacancyRoutes, hfindVR]
    refine ⟨_, heq, ?_⟩
    have hf1 := find_hasApp_updateVacancy store applicationId v
      ⟨v.vid, v.status, v.featured,
        setStatusFirst v.applications applicationId s⟩ hfindTA rfl (happ1 v.status)
    unfold statusOfApplication
    rw [hf1]
    show ((setStatusFirst v.applications applicationId s).find?
        (fun a => a.appId == applicationId)).map (fun a => a.status) = some s
    exact find?_setStatusFirst v.applications applicationId s happ

/-- Witness for `status_update_stores_any_string_verbatim`: the string
"banana", outside the documented enumeration, is stored verbatim and both
routes report success. -/
theorem status_update_stores_any_string_verbatim_witness :
    (∃ committed vResp,
        applicationStatusTeacherApply [⟨1, "open", false, [⟨1, 1, "pending", 0⟩]⟩]
            1 "banana" = .ok (committed, vResp) ∧
        statusOfApplication committed 1 = some "banana") ∧
    (∃ committed2,
        applicationStatusVacancyRoutes [⟨1, "open", false, [⟨1, 1, "pending", 0⟩]⟩]
            1 1 "banana" = .ok committed2 ∧
        statusOfApplication committed2 1 = some "banana") :=
  status_update_stores_any_string_verbatim
    [⟨1, "open", false, [⟨1, 1, "pending", 0⟩]⟩] 1 1 "banana"
    ⟨1, "open", false, [⟨1, 1, "pending", 0⟩]⟩ rfl rfl
